import Mathlib

/-!
Verification of the compas_grid structural-grid library against its design
specification.  The Python sources are shallowly embedded: pure functions
become Lean functions over `ℚ`, `Nat`, `Bool` and lists; in-place mutation
becomes explicit state passing; Python exceptions become `Except PyError`.
Floating-point arithmetic is modelled by exact rationals; the square root
used by `Vector.unitize` is passed as an oracle `s : ℚ → ℚ` constrained,
where a theorem needs it, by `s q * s q = q` and `0 < s q` at the values the
code queries.
-/

namespace CompasGrid

/-- Python exception values that the embedded code can raise. -/
inductive PyError
  | typeError
  | valueError (msg : String)
  | keyError
  | attributeError (attr : String)
deriving DecidableEq, Repr

/-! ## `ColumnHeadDirection` (src/compas_grid/shapes/shape_column_head.py, lines 8-68) -/

/-- The eight directions of `ColumnHeadDirection`; even-valued members are the
cardinals, odd-valued members the diagonals. -/
inductive Dir
  | north
  | northWest
  | west
  | southWest
  | south
  | southEast
  | east
  | northEast
deriving DecidableEq, Repr, Fintype

/-- The `IntEnum` value of each direction (`NORTH = 0`, ..., `NORTH_EAST = 7`). -/
def Dir.val : Dir → Nat
  | .north => 0
  | .northWest => 1
  | .west => 2
  | .southWest => 3
  | .south => 4
  | .southEast => 5
  | .east => 6
  | .northEast => 7

/-- `ColumnHeadDirection.get_direction_combination`: the eight-entry dictionary
mapping a pair of perpendicular cardinals to the diagonal between them; a pair
absent from the dictionary raises `KeyError`, modelled by `none`. -/
def getDirectionCombination (d1 d2 : Dir) : Option Dir :=
  match d1, d2 with
  | .north, .west => some .northWest
  | .west, .north => some .northWest
  | .west, .south => some .southWest
  | .south, .west => some .southWest
  | .south, .east => some .southEast
  | .east, .south => some .southEast
  | .north, .east => some .northEast
  | .east, .north => some .northEast
  | _, _ => none

/-! ## Rule vectors and the diagonal fix-up
(src/compas_grid/shapes/shape_column_head.py, `_generate_mesh`, lines 295-299)

A rule vector is the Python list of eight booleans indexed by `Dir.val`.
The fix-up loop reads only even (cardinal) indices and writes only odd
(diagonal) indices, one odd index per iteration `i = 0, 1, 2, 3`. -/

/-- One iteration of the fix-up loop under the spec-intended mutable-sequence
semantics: clear diagonal bit `i*2+1` when it is set while either neighbouring
cardinal bit (`i*2` or `(i*2+2) % 8`) is unset.  This is NOT what the program
does: `_generate_mesh` receives the rules as a tuple, so whenever the clearing
branch is taken the item assignment of line 299 raises `TypeError` instead —
the faithful semantics is `fixStepPy` below.  This counterfactual version
exists only to state the spec's intended fix-up and closure properties. -/
def fixStep (r : List Bool) (i : Nat) : List Bool :=
  if r.getD (i * 2 + 1) false
      && (!(r.getD (i * 2) false) || !(r.getD ((i * 2 + 2) % 8) false)) then
    r.set (i * 2 + 1) false
  else
    r

/-- The whole fix-up loop `for i in range(4)` under the spec-intended
mutable-sequence semantics of `fixStep`.  On every rule vector where any
iteration would actually clear a bit, the program raises `TypeError` instead
(see `fixStepPy` / `generateMeshPy`); on the remaining vectors `fixRules` is
the identity and agrees with the program. -/
def fixRules (r : List Bool) : List Bool :=
  fixStep (fixStep (fixStep (fixStep r 0) 1) 2) 3

/-- The same loop iteration under the semantics of the code as written: the
rules argument is the tuple produced by `_generate_rules`, and item assignment
on a tuple raises `TypeError`. -/
def fixStepPy (r : List Bool) (i : Nat) : Except PyError (List Bool) :=
  if r.getD (i * 2 + 1) false
      && (!(r.getD (i * 2) false) || !(r.getD ((i * 2 + 2) % 8) false)) then
    Except.error PyError.typeError
  else
    Except.ok r

/-! ## Mesh synthesis (`_generate_mesh`, lines 249-371)

The mesh is combinatorial data over the sixteen fixed vertex indices 0-15
(outer ring 0-7, inner quad 8-11, top quad 12-15); only its face lists matter
for the closure property, so faces are embedded as `List (List Nat)` in the
order `mesh.add_face` is called. -/

/-- The two faces passed to `Mesh.from_vertices_and_faces`. -/
def baseFaces : List (List Nat) :=
  [[8, 9, 10, 11], [12, 13, 14, 15]]

/-- The pair of faces added for each active rule bit, in source order
(`if rules[0]: ... if rules[7]: ...`). -/
def sideFaces (r : List Bool) : List (List Nat) :=
  (if r.getD 0 false then [[0, 1, 9, 8], [0, 1, 13, 12]] else []) ++
  (if r.getD 1 false then [[1, 2, 9], [1, 2, 13]] else []) ++
  (if r.getD 2 false then [[2, 3, 10, 9], [2, 3, 14, 13]] else []) ++
  (if r.getD 3 false then [[3, 4, 10], [3, 4, 14]] else []) ++
  (if r.getD 4 false then [[4, 5, 11, 10], [4, 5, 15, 14]] else []) ++
  (if r.getD 5 false then [[5, 6, 11], [5, 6, 15]] else []) ++
  (if r.getD 6 false then [[6, 7, 8, 11], [6, 7, 12, 15]] else []) ++
  (if r.getD 7 false then [[7, 0, 8], [7, 0, 12]] else [])

/-- `int(ceil(n * 0.5))` for a natural number `n`. -/
def ceilHalf (n : Nat) : Nat := (n + 1) / 2

/-- The "outer ring vertical triangle faces" loop body at index `i`
(lines 343-359): for an inactive bit `i`, close the gap towards each active
neighbour `(i-1) % 8` and `(i+1) % 8`. -/
def gapFacesAt (r : List Bool) (i : Nat) : List (List Nat) :=
  if r.getD i false then
    []
  else
    (if r.getD ((i + 7) % 8) false then
        [[i % 8, ceilHalf (i % 8) % 4 + 8, ceilHalf (i % 8) % 4 + 8 + 4]]
      else []) ++
    (if r.getD ((i + 1) % 8) false then
        [[(i + 1) % 8, ceilHalf ((i + 1) % 8) % 4 + 8,
          ceilHalf ((i + 1) % 8) % 4 + 8 + 4]]
      else [])

/-- All outer-ring closing triangles, `for i in range(8)`. -/
def gapFaces (r : List Bool) : List (List Nat) :=
  ((List.range 8).map (gapFacesAt r)).flatten

/-- The "inner quad vertical triangle faces" loop body at index `i`
(lines 362-368): a side quad of the inner box where cardinal `i*2` is inactive. -/
def innerFacesAt (r : List Bool) (i : Nat) : List (List Nat) :=
  if r.getD (i * 2) false then
    []
  else
    [[i + 8, (i + 1) % 4 + 8, (i + 1) % 4 + 8 + 4, i + 8 + 4]]

/-- All inner-quad side faces, `for i in range(4)`. -/
def innerFaces (r : List Bool) : List (List Nat) :=
  ((List.range 4).map (innerFacesAt r)).flatten

/-- All faces `_generate_mesh` adds when reading the (already fixed-up) rules
list `r`. -/
def buildFaces (r : List Bool) : List (List Nat) :=
  baseFaces ++ sideFaces r ++ gapFaces r ++ innerFaces r

/-- The spec-intended semantics of `_generate_mesh` on a fresh cache: fix up
the rules, then add the faces.  The program itself raises `TypeError` on every
vector the fix-up would modify (`generateMeshPy`); this version exists to state
the spec's closure property over all 256 vectors. -/
def generateMeshFaces (r : List Bool) : List (List Nat) :=
  buildFaces (fixRules r)

/-- `_generate_mesh` under the semantics of the code as written: the rules
argument is the tuple `_generate_rules` returns, so the fix-up's item
assignment raises `TypeError`.  The memoization lookup that precedes the
fix-up is a no-op on the fresh cache modelled here. -/
def generateMeshPy (r : List Bool) : Except PyError (List (List Nat)) := do
  let r ← fixStepPy r 0
  let r ← fixStepPy r 1
  let r ← fixStepPy r 2
  let r ← fixStepPy r 3
  Except.ok (buildFaces r)

/-! ## Closed-surface check -/

/-- The boundary edges of one face, as unordered vertex pairs. -/
def faceEdges (f : List Nat) : List (Nat × Nat) :=
  (List.range f.length).map fun i =>
    let a := f.getD i 0
    let b := f.getD ((i + 1) % f.length) 0
    (min a b, max a b)

/-- The multiset (as a list) of all boundary edges of all faces. -/
def boundaryEdges (faces : List (List Nat)) : List (Nat × Nat) :=
  (faces.map faceEdges).flatten

/-- The distinct edges of the face list. -/
def edgeList (faces : List (List Nat)) : List (Nat × Nat) :=
  (boundaryEdges faces).dedup

/-- The distinct vertices referenced by the faces (what survives
`remove_unused_vertices`). -/
def usedVertices (faces : List (List Nat)) : List Nat :=
  faces.flatten.dedup

/-- Closed 2-manifold check: every edge borders exactly two faces. -/
def isClosed (faces : List (List Nat)) : Bool :=
  (edgeList faces).all fun e => (boundaryEdges faces).count e == 2

/-- Euler characteristic check `V - E + F = 2`, written without truncated
subtraction. -/
def eulerOk (faces : List (List Nat)) : Bool :=
  (usedVertices faces).length + faces.length == (edgeList faces).length + 2

/-- The rule vector encoded by the bits of `n` (bit `i` is direction `i`). -/
def ruleVecOf (n : Nat) : List Bool :=
  (List.range 8).map fun i => (n / 2 ^ i) % 2 == 1

/-- The whole claimed property of one generated mesh: closed and `V - E + F = 2`. -/
def closureOk (r : List Bool) : Bool :=
  isClosed (generateMeshFaces r) && eulerOk (generateMeshFaces r)

/-! ## Topology reconstruction
(src/compas_grid/datastructures/cell_network.py, `from_lines_and_surfaces`)

Floating-point coordinates are embedded as exact rationals.  The collaborators
from the external compas library that the method calls are modelled from their
documented contracts: `TOL.geometric_key` quantizes each coordinate to
`precision` decimals; `Graph.from_lines` merges endpoints with equal geometric
keys (first seen wins, ids in discovery order) and stores one edge per input
line in the order of the line's endpoints; `mesh.to_lines` yields one line per
mesh edge; `mesh.vertex_gkey` yields the key of every mesh vertex. -/

/-- A 3d point / coordinate triple. -/
structure P3 where
  x : ℚ
  y : ℚ
  z : ℚ
deriving DecidableEq, Repr

/-- Geometric key of a point at `t` decimals (`TOL.geometric_key(xyz, precision=t)`):
each coordinate rounded to the nearest multiple of `10 ^ (-t)`, the direction of
the half-way tie being immaterial here. -/
def gkey (t : Nat) (p : P3) : ℤ × ℤ × ℤ :=
  (⌊p.x * 10 ^ t + 1 / 2⌋, ⌊p.y * 10 ^ t + 1 / 2⌋, ⌊p.z * 10 ^ t + 1 / 2⌋)

/-- The undirected graph built by `Graph.from_lines`. -/
structure GraphQ where
  nodes : List (Nat × P3)
  edges : List (Nat × Nat)
deriving DecidableEq, Repr

/-- The node, if any, whose geometric key equals the key of `p`. -/
def findNode (t : Nat) (nodes : List (Nat × P3)) (p : P3) : Option Nat :=
  (nodes.find? fun q => gkey t q.2 == gkey t p).map fun q => q.1

/-- Return the existing node id for `p`, or allocate the next id. -/
def addNodeAt (t : Nat) (g : GraphQ) (p : P3) : GraphQ × Nat :=
  match findNode t g.nodes p with
  | some i => (g, i)
  | none => ({ nodes := g.nodes ++ [(g.nodes.length, p)], edges := g.edges }, g.nodes.length)

/-- `Graph.from_lines(lines, precision=t)`: merge endpoints by geometric key and
add one edge per line, endpoints in input order. -/
def graphFromLines (t : Nat) (ls : List (P3 × P3)) : GraphQ :=
  ls.foldl
    (fun g l =>
      let gu := addNodeAt t g l.1
      let gv := addNodeAt t gu.1 l.2
      { nodes := gv.1.nodes, edges := gv.1.edges ++ [(gu.2, gv.2)] })
    { nodes := [], edges := [] }

/-- `graph.neighbors(i)`: the other endpoint of every edge incident to `i`, in
edge insertion order. -/
def graphNeighbors (es : List (Nat × Nat)) (i : Nat) : List Nat :=
  (es.map fun e => if e.1 == i then [e.2] else if e.2 == i then [e.1] else []).flatten

/-- `mesh.to_lines()` for a single-face mesh given by its vertex cycle. -/
def meshToLines (m : List P3) : List (P3 × P3) :=
  (List.range m.length).map fun i =>
    (m.getD i ⟨0, 0, 0⟩, m.getD ((i + 1) % m.length) ⟨0, 0, 0⟩)

/-- The two semantic edge flags; `from_lines_and_surfaces` sets exactly one of
the attributes `is_beam` / `is_column` to `True` on each edge (line 86). -/
inductive EdgeClass
  | beam
  | column
deriving DecidableEq, Repr

/-- Edge classification of line 86: `is_beam` when the elevation difference is
below `1 / max(1, tolerance)`, otherwise `is_column`. -/
def classifyEdge (zu zv : ℚ) (tolerance : Nat) : EdgeClass :=
  if |zu - zv| < 1 / ((max 1 tolerance : ℕ) : ℚ) then EdgeClass.beam else EdgeClass.column

/-- The z coordinate of vertex `i` (`graph.node_attributes(i, "xyz")[2]`). -/
def vertexZ (vs : List (Nat × P3)) (i : Nat) : ℚ :=
  ((vs.lookup i).getD ⟨0, 0, 0⟩).z

/-- Lines 90-91: the face vertex list built for one floor mesh, keeping only
the vertices whose geometric key resolves in `cell_network_vertex_keys`. -/
def addFloorFace (ks : List ((ℤ × ℤ × ℤ) × Nat)) (g : List (ℤ × ℤ × ℤ)) : List Nat :=
  g.filterMap fun k => ks.lookup k

/-- Lines 89-92: one `add_face` call per floor mesh, unconditionally. -/
def addFloorFaces (ks : List ((ℤ × ℤ × ℤ) × Nat)) (gs : List (List (ℤ × ℤ × ℤ))) :
    List (List Nat) :=
  gs.map (addFloorFace ks)

/-- The data `CellNetwork.from_lines_and_surfaces` stores. -/
structure CellNet where
  vertices : List (Nat × P3)
  vertexKeys : List ((ℤ × ℤ × ℤ) × Nat)
  edges : List (Nat × Nat)
  neighbors : List (Nat × List Nat)
  edgeFlags : List ((Nat × Nat) × EdgeClass)
  faces : List (List Nat)
deriving DecidableEq, Repr

/-- `CellNetwork.from_lines_and_surfaces(column_and_beams, floor_surfaces, tolerance)`. -/
def cellNetworkFromLinesAndSurfaces (tol : Nat) (lines : List (P3 × P3))
    (meshes : List (List P3)) : CellNet :=
  let userLines := lines ++ (meshes.map meshToLines).flatten
  let graph := graphFromLines tol userLines
  let vks := graph.nodes.map fun q => (gkey tol q.2, q.1)
  { vertices := graph.nodes
    vertexKeys := vks
    edges := graph.edges
    neighbors := graph.nodes.map fun q =>
      (q.1, (graphNeighbors graph.edges q.1).filter fun n =>
        |q.2.z - vertexZ graph.nodes n| < 1 / ((max 1 tol : ℕ) : ℚ))
    edgeFlags := graph.edges.map fun e =>
      (e, classifyEdge (vertexZ graph.nodes e.1) (vertexZ graph.nodes e.2) tol)
    faces := addFloorFaces vks (meshes.map fun m => m.map (gkey tol)) }

/-- `add_column` of src/compas_grid/models/model_grid.py, lines 214-217: the
axis endpoints are swapped on use when the stored start is above the stored
end, so the constructed column axis always runs bottom-up. -/
def columnAxis (a b : P3) : P3 × P3 :=
  if a.z > b.z then (b, a) else (a, b)

/-! ## The plane-slice cut
(src/compas_grid/interactions/interaction_interface_cutter.py,
`compute_interaction`, lines 44-69, and src/compas_grid/__init__.py)

The external `Mesh.slice` kernel call is abstracted by its outcome: it either
raises or returns a list of fragments.  A fragment only needs an identity and
a volume here. -/

/-- A mesh fragment returned by the slicing kernel. -/
structure CutMesh where
  id : Nat
  volume : ℚ
deriving DecidableEq, Repr

/-- Outcome of the external `geometry_to_modify.slice(slice_plane)` call. -/
inductive SliceOutcome
  | raises
  | fragments (ms : List CutMesh)
deriving DecidableEq, Repr

/-- The names bound at module level in src/compas_grid/__init__.py.  Neither
`debug` nor `global_property` is ever assigned anywhere in the package. -/
def compasGridModuleAttrs : List String :=
  ["os", "BeamElement", "ColumnHeadElement", "ColumnElement", "PlateElement",
   "CutterInterface", "GridModel", "HERE", "HOME", "DATA", "DOCS", "TEMP"]

/-- `InteractionInterfaceCutter.compute_interaction` after the slice call:
on success, `return split_meshes[0]` when the fragment list is truthy, else
fall through to `None`; on a kernel exception, the handler evaluates
`compas_grid.debug`, an attribute lookup on the module.  The result pairs the
Python return value (or the exception that escapes) with the final state of
the process-wide diagnostic list. -/
def computeInteraction (slice : SliceOutcome) (sink : List CutMesh) :
    Except PyError (Option CutMesh) × List CutMesh :=
  match slice with
  | SliceOutcome.fragments ms => (Except.ok ms.head?, sink)
  | SliceOutcome.raises =>
      if compasGridModuleAttrs.contains "debug" then
        (Except.ok none, sink)
      else
        (Except.error (PyError.attributeError "debug"), sink)

/-! ## Direction classification and rule derivation
(src/compas_grid/shapes/shape_column_head.py, `closest_direction` lines
150-187 and `_generate_rules` lines 189-247; `closest_direction` is repeated
verbatim as `GridModel.closest_direction` in src/compas_grid/model.py,
lines 125-162.)

`vector.unitize()` divides each component by the vector length
`sqrt(x*x + y*y + z*z)`; the square root is the oracle parameter `s`, applied
exactly where the code computes a length. -/

/-- A compas vector (or point) with exact rational components. -/
structure VecQ where
  x : ℚ
  y : ℚ
  z : ℚ
deriving DecidableEq, Repr

/-- `Vector.dot`. -/
def VecQ.dot (a b : VecQ) : ℚ :=
  a.x * b.x + a.y * b.y + a.z * b.z

/-- `p1 - p0` on points. -/
def VecQ.sub (a b : VecQ) : VecQ :=
  ⟨a.x - b.x, a.y - b.y, a.z - b.z⟩

/-- `vector.unitize()`: scale by the reciprocal of the length `s (v . v)`. -/
def unitize (s : ℚ → ℚ) (v : VecQ) : VecQ :=
  let len := s (VecQ.dot v v)
  ⟨v.x / len, v.y / len, v.z / len⟩

/-- The default `directions` dictionary of `closest_direction`, in insertion
order NORTH, EAST, SOUTH, WEST (lines 153-158). -/
def cardinalDirections : List (Dir × VecQ) :=
  [(Dir.north, ⟨0, 1, 0⟩), (Dir.east, ⟨1, 0, 0⟩),
   (Dir.south, ⟨0, -1, 0⟩), (Dir.west, ⟨-1, 0, 0⟩)]

/-- The unit vector of each cardinal direction (diagonals never reach this
table in the code and map to the zero vector). -/
def dirUnit : Dir → VecQ
  | Dir.north => ⟨0, 1, 0⟩
  | Dir.east => ⟨1, 0, 0⟩
  | Dir.south => ⟨0, -1, 0⟩
  | Dir.west => ⟨-1, 0, 0⟩
  | _ => ⟨0, 0, 0⟩

/-- Python `max(..., key=...)`: scan left to right, replacing the current best
only on a strictly greater value, so the first maximum wins. -/
def pyMaxBySnd (best : Dir × ℚ) : List (Dir × ℚ) → Dir × ℚ
  | [] => best
  | p :: rest => pyMaxBySnd (if best.2 < p.2 then p else best) rest

/-- `closest_direction(vector)`: unitize the caller's vector in place (the
mutation is returned as the first component), then return the dictionary key
with the maximal dot product. -/
def closestDirection (s : ℚ → ℚ) (v : VecQ) : VecQ × Dir :=
  let u := unitize s v
  let dots := cardinalDirections.map fun p => (p.1, VecQ.dot u p.2)
  (u, (pyMaxBySnd (dots.headD (Dir.north, 0)) dots.tail).1)

/-- The edge loop of `_generate_rules` (lines 213-227): raise `ValueError` for
an endpoint missing from `v` (message abbreviated, the code interpolates the
vertex id), classify the edge vector, set the cardinal bit, and record the
direction under both orientations of the edge (later entries shadow earlier
ones, hence the prepend). -/
def edgeStage (s : ℚ → ℚ) (v : List (Nat × VecQ)) :
    List (Nat × Nat) → List Bool → List ((Nat × Nat) × Dir) →
    Except PyError (List Bool × List ((Nat × Nat) × Dir))
  | [], rules, ed => Except.ok (rules, ed)
  | e :: rest, rules, ed =>
      match v.lookup e.1 with
      | none => Except.error (PyError.valueError "Vertex not found in the vertices")
      | some p0 =>
          match v.lookup e.2 with
          | none => Except.error (PyError.valueError "Vertex not found in the vertices")
          | some p1 =>
              let d := (closestDirection s (VecQ.sub p1 p0)).2
              edgeStage s v rest (rules.set d.val true)
                (((e.1, e.2), d) :: ((e.2, e.1), d) :: ed)

/-- Lines 230-238: the directions of the face's boundary edges that are found
in `edge_directions` (unmatched boundary edges are skipped). -/
def faceDirections (ed : List ((Nat × Nat) × Dir)) (face : List Nat) : List Dir :=
  (List.range face.length).filterMap fun i =>
    ed.lookup (face.getD i 0, face.getD ((i + 1) % face.length) 0)

/-- Lines 240-245 for one face: `ValueError` (message abbreviated, the code
interpolates the face into it) unless exactly two boundary edges matched;
otherwise combine the two directions, raising `KeyError` when the pair is not
in the combination dictionary, and set the resulting bit. -/
def processFace (ed : List ((Nat × Nat) × Dir)) (rules : List Bool) (face : List Nat) :
    Except PyError (List Bool) :=
  let ds := faceDirections ed face
  if ds.length == 2 then
    match getDirectionCombination (ds.getD 0 Dir.north) (ds.getD 1 Dir.north) with
    | none => Except.error PyError.keyError
    | some fd => Except.ok (rules.set fd.val true)
  else
    Except.error (PyError.valueError "Face does not share two edges")

/-- The face loop of `_generate_rules` (lines 229-245). -/
def faceStage (ed : List ((Nat × Nat) × Dir)) :
    List (List Nat) → List Bool → Except PyError (List Bool)
  | [], rules => Except.ok rules
  | face :: rest, rules =>
      match processFace ed rules face with
      | Except.error err => Except.error err
      | Except.ok rules2 => faceStage ed rest rules2

/-- `_generate_rules(v, e, f)` end to end. -/
def generateRules (s : ℚ → ℚ) (v : List (Nat × VecQ)) (e : List (Nat × Nat))
    (f : List (List Nat)) : Except PyError (List Bool) :=
  match edgeStage s v e (List.replicate 8 false) [] with
  | Except.error err => Except.error err
  | Except.ok rsed => faceStage rsed.2 f rsed.1

/-- The rule-vector invariant of the data model: a diagonal bit is set only
when both of its neighbouring cardinal bits are set. -/
def diagOk (r : List Bool) : Prop :=
  ∀ i : Fin 4, r.getD (i.val * 2 + 1) false = true →
    r.getD (i.val * 2) false = true ∧ r.getD ((i.val * 2 + 2) % 8) false = true

/-! ## Theorems -/

/-- Claim C9: the direction-combination lookup is symmetric; for every pair of
directions, `get_direction_combination(a, b)` and `get_direction_combination(b, a)`
agree, both when the pair is in the dictionary and when both orders raise
`KeyError` (`none`). -/
theorem getDirectionCombination_symm :
    ∀ a b : Dir, getDirectionCombination a b = getDirectionCombination b a := by
  decide

/-- Under the spec-intended mutable-sequence semantics of the fix-up (never
realized by the program on vectors needing a clear, see `generateMeshPy`),
every post-fix-up vector satisfies the diagonal invariant.  This supports the
divergence analysis of claim C2: the property the fix-up was written for does
hold of its logic, the tuple typing alone defeats it. -/
theorem fixRules_forces_diagonals :
    ∀ (b0 b1 b2 b3 b4 b5 b6 b7 : Bool) (i : Fin 4),
      (fixRules [b0, b1, b2, b3, b4, b5, b6, b7]).getD (i.val * 2 + 1) false = true →
        (fixRules [b0, b1, b2, b3, b4, b5, b6, b7]).getD (i.val * 2) false = true ∧
        (fixRules [b0, b1, b2, b3, b4, b5, b6, b7]).getD ((i.val * 2 + 2) % 8) false = true := by
  decide

/-- Witness for `fixRules_forces_diagonals` at the all-true rule vector and the
first diagonal. -/
theorem fixRules_forces_diagonals_witness :
    (fixRules [true, true, true, true, true, true, true, true]).getD
        ((0 : Fin 4).val * 2) false = true ∧
    (fixRules [true, true, true, true, true, true, true, true]).getD
        (((0 : Fin 4).val * 2 + 2) % 8) false = true :=
  fixRules_forces_diagonals true true true true true true true true 0 (by decide)

/-- Claim C5 counterexample: a rule vector whose SOUTH_WEST diagonal bit is set
without its neighbouring cardinals is never forced to false: the fix-up
iteration that should clear it performs tuple item assignment and raises
`TypeError`, so `_generate_mesh` raises before any face is added instead of
building a mesh from a repaired vector. -/
theorem generateMeshPy_diagonal_not_forced :
    fixStepPy [false, false, false, true, false, false, false, false] 1
        = Except.error PyError.typeError ∧
    generateMeshPy [false, false, false, true, false, false, false, false]
        = Except.error PyError.typeError :=
  ⟨rfl, rfl⟩

/-- Claim C2: `_generate_mesh` receives the rules as the tuple produced by
`_generate_rules`, and the fix-up assignment `rules[i * 2 + 1] = False`
(line 299) is tuple item assignment, so for a rule vector whose diagonal bit
must be cleared (here only NORTH_WEST set) the call raises `TypeError` instead
of returning a mesh. -/
theorem generateMeshPy_raises_typeError :
    generateMeshPy [false, true, false, false, false, false, false, false]
      = Except.error PyError.typeError := by
  rfl

/-- Claim C3: when the slice kernel raises, the handler evaluates
`compas_grid.debug`, but the module defines neither `debug` nor
`global_property`, so an `AttributeError` escapes `compute_interaction` to the
caller and nothing is ever appended to a diagnostic sink. -/
theorem computeInteraction_kernel_failure_propagates :
    ∀ (sink : List CutMesh),
      computeInteraction SliceOutcome.raises sink
          = (Except.error (PyError.attributeError "debug"), sink) ∧
      compasGridModuleAttrs.contains "debug" = false ∧
      compasGridModuleAttrs.contains "global_property" = false := by
  intro sink
  exact ⟨rfl, rfl, rfl⟩

/-- Claim C4 (amended): when the slice succeeds, `compute_interaction` returns
the first fragment of the kernel result, whatever the volumes, and `None` when
the kernel returns no fragments. -/
theorem computeInteraction_returns_first_fragment :
    ∀ (m : CutMesh) (rest : List CutMesh) (sink : List CutMesh),
      computeInteraction (SliceOutcome.fragments (m :: rest)) sink
          = (Except.ok (some m), sink) ∧
      computeInteraction (SliceOutcome.fragments []) sink = (Except.ok none, sink) :=
  fun _ _ _ => ⟨rfl, rfl⟩

/-- Claim C4 counterexample: a slice producing a volume-1 fragment before a
volume-3 fragment makes `compute_interaction` return the volume-1 piece, not
the larger one. -/
theorem computeInteraction_smaller_fragment_returned :
    computeInteraction (SliceOutcome.fragments [⟨1, 1⟩, ⟨2, 3⟩]) []
        = (Except.ok (some ⟨1, 1⟩), []) ∧
    (⟨1, 1⟩ : CutMesh).volume < (⟨2, 3⟩ : CutMesh).volume :=
  ⟨rfl, by decide⟩

/-- Claim C1 (amended): each floor mesh always registers exactly one face,
whose vertex list keeps exactly the vertices whose geometric key resolves;
the face has as many vertices as the mesh precisely when every key resolves,
and no error is raised in either case. -/
theorem addFloorFace_keeps_resolving_vertices :
    ∀ (ks : List ((ℤ × ℤ × ℤ) × Nat)) (g : List (ℤ × ℤ × ℤ)),
      addFloorFaces ks [g] = [addFloorFace ks g] ∧
      ((addFloorFace ks g).length = g.length
        ↔ g.all (fun k => (ks.lookup k).isSome) = true) := by
  intro ks g
  refine ⟨rfl, ?_⟩
  induction g with
  | nil => simp [addFloorFace]
  | cons k t ih =>
    simp only [addFloorFace, List.filterMap_cons, List.all_cons, Bool.and_eq_true]
    cases h : List.lookup k ks with
    | none =>
      simp only [h, Option.isSome_none, List.length_cons]
      constructor
      · intro hlen
        have hle := List.length_filterMap_le (fun k => List.lookup k ks) t
        simp only [addFloorFace] at hlen
        omega
      · intro hall
        cases hall.1
    | some w =>
      simp only [h, Option.isSome_some, true_and, List.length_cons]
      simp only [addFloorFace] at ih
      constructor
      · intro hlen
        exact ih.mp (Nat.succ_injective hlen)
      · intro hall
        exact congrArg Nat.succ (ih.mpr hall)

/-- Claim C1 counterexample: a floor mesh with one unresolved geometric key is
not dropped; a face over the three resolving vertices is still registered. -/
theorem addFloorFaces_partial_face_still_registered :
    addFloorFaces [((0, 0, 0), 0), ((1000, 0, 0), 1), ((1000, 1000, 0), 2)]
        [[(0, 0, 0), (1000, 0, 0), (1000, 1000, 0), (0, 1000, 0)]]
      = [[0, 1, 2]] ∧
    List.lookup ((0, 1000, 0) : ℤ × ℤ × ℤ)
        [((0, 0, 0), 0), ((1000, 0, 0), 1), ((1000, 1000, 0), 2)] = none := by
  decide

/-- Claim C7 (amended): the stored edges keep the orientation of the input
lines, and the canonical bottom-up direction is instead established on use:
the column axis built by `add_column` always satisfies `start.z <= end.z`. -/
theorem columnAxis_start_below_end :
    ∀ a b : P3, (columnAxis a b).1.z ≤ (columnAxis a b).2.z := by
  intro a b
  unfold columnAxis
  split_ifs with h
  · exact le_of_lt h
  · exact le_of_not_lt h

/-- Evaluation helper: a single input line between two points with distinct
geometric keys becomes the two nodes `0, 1` in endpoint order and the single
edge `(0, 1)`. -/
theorem graphFromLines_single (t : Nat) (p q : P3) (h : gkey t p ≠ gkey t q) :
    graphFromLines t [(p, q)] = ⟨[(0, p), (1, q)], [(0, 1)]⟩ := by
  have hb : (gkey t p == gkey t q) = false := beq_eq_false_iff_ne.mpr h
  simp [graphFromLines, addNodeAt, findNode, hb]

/-- Claim C7 counterexample: a single input line running downwards is stored
as the edge `(0, 1)` with `start.z = 5 > 0 = end.z`, so the topology produced
by `from_lines_and_surfaces` does not order edge endpoints by elevation. -/
theorem cellNetwork_edge_not_canonically_ordered :
    (cellNetworkFromLinesAndSurfaces 3 [(⟨0, 0, 5⟩, ⟨0, 0, 0⟩)] []).edges = [(0, 1)] ∧
    vertexZ (cellNetworkFromLinesAndSurfaces 3 [(⟨0, 0, 5⟩, ⟨0, 0, 0⟩)] []).vertices 0 = 5 ∧
    vertexZ (cellNetworkFromLinesAndSurfaces 3 [(⟨0, 0, 5⟩, ⟨0, 0, 0⟩)] []).vertices 1 = 0 ∧
    ¬((5 : ℚ) ≤ 0) := by
  have h : gkey 3 (⟨0, 0, 5⟩ : P3) ≠ gkey 3 (⟨0, 0, 0⟩ : P3) := by
    simp only [gkey, Prod.mk.injEq, ne_eq, not_and]
    intro _ _
    norm_num
  have hg := graphFromLines_single 3 ⟨0, 0, 5⟩ ⟨0, 0, 0⟩ h
  refine ⟨?_, ?_, ?_, by norm_num⟩ <;>
    simp [cellNetworkFromLinesAndSurfaces, hg, vertexZ, List.lookup]

/-- Claim C6: `from_lines_and_surfaces` flags every edge from the elevation
difference of its endpoints, and the classification is exhaustive and
exclusive: elevation difference below `1 / max(1, tolerance)` gives `is_beam`,
anything else gives `is_column`, never both and never neither. -/
theorem classifyEdge_exactly_one_flag :
    ∀ (tol : Nat) (lines : List (P3 × P3)) (meshes : List (List P3)) (zu zv : ℚ),
      (cellNetworkFromLinesAndSurfaces tol lines meshes).edgeFlags
        = (cellNetworkFromLinesAndSurfaces tol lines meshes).edges.map (fun e =>
            (e, classifyEdge
              (vertexZ (cellNetworkFromLinesAndSurfaces tol lines meshes).vertices e.1)
              (vertexZ (cellNetworkFromLinesAndSurfaces tol lines meshes).vertices e.2) tol)) ∧
      (classifyEdge zu zv tol = EdgeClass.beam ∨ classifyEdge zu zv tol = EdgeClass.column) ∧
      ¬(classifyEdge zu zv tol = EdgeClass.beam ∧ classifyEdge zu zv tol = EdgeClass.column) ∧
      (classifyEdge zu zv tol = EdgeClass.beam ↔ |zu - zv| < 1 / ((max 1 tol : ℕ) : ℚ)) ∧
      (classifyEdge zu zv tol = EdgeClass.column ↔ ¬(|zu - zv| < 1 / ((max 1 tol : ℕ) : ℚ))) := by
  intro tol lines meshes zu zv
  refine ⟨rfl, ?_⟩
  unfold classifyEdge
  by_cases h : |zu - zv| < 1 / ((max 1 tol : ℕ) : ℚ)
  · rw [if_pos h]
    exact ⟨Or.inl rfl,
      fun hb => EdgeClass.noConfusion hb.2,
      ⟨fun _ => h, fun _ => rfl⟩,
      ⟨fun hc => EdgeClass.noConfusion hc, fun hnh => absurd h hnh⟩⟩
  · rw [if_neg h]
    exact ⟨Or.inr rfl,
      fun hb => EdgeClass.noConfusion hb.1,
      ⟨fun hc => EdgeClass.noConfusion hc, fun hlt => absurd hlt h⟩,
      ⟨fun _ => h, fun _ => rfl⟩⟩

/-- Claim C8 (amended): for a face, `_generate_rules` raises the ValueError
exactly when the number of its boundary edges matching a known edge direction
differs from two; with exactly two matches it can still raise `KeyError` from
the combination lookup, and it succeeds for the face precisely when the two
matched directions form a pair of the combination dictionary. -/
theorem processFace_error_conditions :
    ∀ (ed : List ((Nat × Nat) × Dir)) (rules : List Bool) (face : List Nat),
      (processFace ed rules face
          = Except.error (PyError.valueError "Face does not share two edges")
        ↔ (faceDirections ed face).length ≠ 2) ∧
      (processFace ed rules face = Except.error PyError.keyError
        ↔ (faceDirections ed face).length = 2 ∧
          getDirectionCombination ((faceDirections ed face).getD 0 Dir.north)
            ((faceDirections ed face).getD 1 Dir.north) = none) ∧
      ((∃ r, processFace ed rules face = Except.ok r)
        ↔ (faceDirections ed face).length = 2 ∧
          (getDirectionCombination ((faceDirections ed face).getD 0 Dir.north)
            ((faceDirections ed face).getD 1 Dir.north)).isSome = true) := by
  intro ed rules face
  by_cases h : (faceDirections ed face).length = 2
  · have hb : ((faceDirections ed face).length == 2) = true := by simp [h]
    cases hc : getDirectionCombination ((faceDirections ed face).getD 0 Dir.north)
        ((faceDirections ed face).getD 1 Dir.north) with
    | none =>
      simp only [processFace]
      rw [hb, hc]
      simp [h]
    | some fd =>
      simp only [processFace]
      rw [hb, hc]
      simp [h]
  · have hb : ((faceDirections ed face).length == 2) = false := by simp [h]
    simp only [processFace]
    rw [hb]
    simp [h]

/-- Evaluation helper: the classified direction of the north unit vector. -/
theorem closestDirection_north :
    closestDirection (fun _ => 1) ⟨0, 1, 0⟩ = (⟨0, 1, 0⟩, Dir.north) := by
  norm_num [closestDirection, unitize, VecQ.dot, cardinalDirections, pyMaxBySnd]

/-- Evaluation helper: the classified direction of the south unit vector. -/
theorem closestDirection_south :
    closestDirection (fun _ => 1) ⟨0, -1, 0⟩ = (⟨0, -1, 0⟩, Dir.south) := by
  norm_num [closestDirection, unitize, VecQ.dot, cardinalDirections, pyMaxBySnd]

/-- Claim C8 counterexample: junction with a north beam and a south beam and a
floor face over both: the face matches exactly two known edge directions, so
the ValueError check passes, yet `_generate_rules` raises `KeyError` because
(NORTH, SOUTH) is not in the combination dictionary. -/
theorem generateRules_keyError_with_two_matched_edges :
    generateRules (fun _ => 1) [(0, ⟨0, 0, 0⟩), (1, ⟨0, 1, 0⟩), (2, ⟨0, -1, 0⟩)]
        [(0, 1), (0, 2)] [[1, 0, 2]] = Except.error PyError.keyError ∧
    (edgeStage (fun _ => 1) [(0, ⟨0, 0, 0⟩), (1, ⟨0, 1, 0⟩), (2, ⟨0, -1, 0⟩)]
        [(0, 1), (0, 2)] (List.replicate 8 false) []).map
          (fun rsed => faceDirections rsed.2 [1, 0, 2])
      = Except.ok [Dir.north, Dir.south] := by
  have h1 : VecQ.sub ⟨0, 1, 0⟩ ⟨0, 0, 0⟩ = (⟨0, 1, 0⟩ : VecQ) := by
    simp [VecQ.sub]
  have h2 : VecQ.sub ⟨0, -1, 0⟩ ⟨0, 0, 0⟩ = (⟨0, -1, 0⟩ : VecQ) := by
    simp [VecQ.sub]
  have he : edgeStage (fun _ => 1) [(0, ⟨0, 0, 0⟩), (1, ⟨0, 1, 0⟩), (2, ⟨0, -1, 0⟩)]
      [(0, 1), (0, 2)] (List.replicate 8 false) []
      = Except.ok ([true, false, false, false, true, false, false, false],
          [((0, 2), Dir.south), ((2, 0), Dir.south),
           ((0, 1), Dir.north), ((1, 0), Dir.north)]) := by
    simp [edgeStage, List.lookup, h1, h2, closestDirection_north,
      closestDirection_south, Dir.val, List.replicate]
  constructor
  · simp only [generateRules]
    rw [he]
    rfl
  · rw [he]
    rfl

/-- Every result of the Python key-first max scan is the starting candidate or
one of the scanned entries. -/
theorem pyMaxBySnd_mem :
    ∀ (l : List (Dir × ℚ)) (best : Dir × ℚ),
      pyMaxBySnd best l = best ∨ pyMaxBySnd best l ∈ l := by
  intro l
  induction l with
  | nil => intro best; exact Or.inl rfl
  | cons p rest ih =>
    intro best
    simp only [pyMaxBySnd]
    rcases ih (if best.2 < p.2 then p else best) with h | h
    · rw [h]
      by_cases hc : best.2 < p.2
      · rw [if_pos hc]; exact Or.inr (List.mem_cons_self p rest)
      · rw [if_neg hc]; exact Or.inl rfl
    · exact Or.inr (List.mem_cons_of_mem p h)

/-- The Python key-first max scan dominates its starting candidate and every
scanned entry. -/
theorem pyMaxBySnd_ge :
    ∀ (l : List (Dir × ℚ)) (best : Dir × ℚ),
      best.2 ≤ (pyMaxBySnd best l).2 ∧ ∀ p ∈ l, p.2 ≤ (pyMaxBySnd best l).2 := by
  intro l
  induction l with
  | nil =>
    intro best
    exact ⟨le_refl _, by simp⟩
  | cons p rest ih =>
    intro best
    simp only [pyMaxBySnd]
    rcases ih (if best.2 < p.2 then p else best) with ⟨h1, h2⟩
    constructor
    · refine le_trans ?_ h1
      by_cases hc : best.2 < p.2
      · rw [if_pos hc]; exact le_of_lt hc
      · rw [if_neg hc]
    · intro q hq
      rcases List.mem_cons.mp hq with hqp | hq2
      · rw [hqp]
        refine le_trans ?_ h1
        by_cases hc : best.2 < p.2
        · rw [if_pos hc]
        · rw [if_neg hc]; exact le_of_not_lt hc
      · exact h2 q hq2

/-- Setting a bit true never clears another true bit. -/
theorem getD_set_true_mono :
    ∀ (l : List Bool) (i j : Nat),
      l.getD i false = true → (l.set j true).getD i false = true := by
  intro l
  induction l with
  | nil =>
    intro i j h
    simp [List.getD] at h
  | cons a t ih =>
    intro i j h
    cases i with
    | zero =>
      cases j with
      | zero => simp
      | succ j2 => simpa using h
    | succ i2 =>
      cases j with
      | zero => simpa using h
      | succ j2 =>
        have := ih i2 j2 (by simpa using h)
        simpa using this

/-- Setting a bit leaves every other position unchanged. -/
theorem getD_set_of_ne :
    ∀ (l : List Bool) (i j : Nat) (a : Bool),
      i ≠ j → (l.set j a).getD i false = l.getD i false := by
  intro l
  induction l with
  | nil => intro i j a _; rfl
  | cons b t ih =>
    intro i j a hij
    cases i with
    | zero =>
      cases j with
      | zero => exact absurd rfl hij
      | succ j2 => simp
    | succ i2 =>
      cases j with
      | zero => simp
      | succ j2 =>
        have := ih i2 j2 a (fun h => hij (congrArg Nat.succ h))
        simpa using this

/-- Setting a bit inside the list really stores `true` at that position. -/
theorem getD_set_self_true :
    ∀ (l : List Bool) (j : Nat), j < l.length → (l.set j true).getD j false = true := by
  intro l
  induction l with
  | nil =>
    intro j h
    exact absurd h (by simp)
  | cons b t ih =>
    intro j h
    cases j with
    | zero => simp
    | succ j2 =>
      have := ih j2 (by simpa using h)
      simpa using this

/-- Setting the bit of a cardinal (even-indexed) direction preserves the
rule-vector invariant. -/
theorem diagOk_set_even :
    ∀ (r : List Bool) (j : Nat), j % 2 = 0 → diagOk r → diagOk (r.set j true) := by
  intro r j hj hd i hdiag
  have hne : i.val * 2 + 1 ≠ j := by omega
  rw [getD_set_of_ne r (i.val * 2 + 1) j true hne] at hdiag
  obtain ⟨h1, h2⟩ := hd i hdiag
  exact ⟨getD_set_true_mono r _ j h1, getD_set_true_mono r _ j h2⟩

/-- Setting a diagonal bit whose two neighbouring cardinal bits are already set
preserves the rule-vector invariant. -/
theorem diagOk_set_diag :
    ∀ (r : List Bool) (i0 : Fin 4), diagOk r →
      r.getD (i0.val * 2) false = true → r.getD ((i0.val * 2 + 2) % 8) false = true →
      diagOk (r.set (i0.val * 2 + 1) true) := by
  intro r i0 hd hc1 hc2 i hdiag
  by_cases hi : i = i0
  · subst hi
    exact ⟨getD_set_true_mono r _ _ hc1, getD_set_true_mono r _ _ hc2⟩
  · have hne : i.val * 2 + 1 ≠ i0.val * 2 + 1 := by
      have : i.val ≠ i0.val := fun h => hi (Fin.ext h)
      omega
    rw [getD_set_of_ne r _ _ true hne] at hdiag
    obtain ⟨h1, h2⟩ := hd i hdiag
    exact ⟨getD_set_true_mono r _ _ h1, getD_set_true_mono r _ _ h2⟩

/-- A successful dictionary lookup returns the value of one of the entries. -/
theorem lookup_value_mem :
    ∀ (l : List ((Nat × Nat) × Dir)) (k : Nat × Nat) (d : Dir),
      List.lookup k l = some d → ∃ k2, (k2, d) ∈ l := by
  intro l
  induction l with
  | nil =>
    intro k d h
    simp [List.lookup] at h
  | cons p t ih =>
    intro k d h
    cases hk : (k == p.1) with
    | true =>
      simp only [List.lookup, hk] at h
      exact ⟨p.1, by simp [← Option.some_injective _ h]⟩
    | false =>
      simp only [List.lookup, hk] at h
      obtain ⟨k2, hk2⟩ := ih k d h
      exact ⟨k2, List.mem_cons_of_mem p hk2⟩

/-- `closest_direction` always returns a cardinal direction, for any vector and
any value of the square-root oracle. -/
theorem closestDirection_always_cardinal :
    ∀ (s : ℚ → ℚ) (v : VecQ),
      (closestDirection s v).2 = Dir.north ∨ (closestDirection s v).2 = Dir.east ∨
      (closestDirection s v).2 = Dir.south ∨ (closestDirection s v).2 = Dir.west := by
  intro s v
  have hres : (closestDirection s v).2
      = (pyMaxBySnd (Dir.north, VecQ.dot (unitize s v) ⟨0, 1, 0⟩)
          [(Dir.east, VecQ.dot (unitize s v) ⟨1, 0, 0⟩),
           (Dir.south, VecQ.dot (unitize s v) ⟨0, -1, 0⟩),
           (Dir.west, VecQ.dot (unitize s v) ⟨-1, 0, 0⟩)]).1 := rfl
  have hmem := pyMaxBySnd_mem
      [(Dir.east, VecQ.dot (unitize s v) ⟨1, 0, 0⟩),
       (Dir.south, VecQ.dot (unitize s v) ⟨0, -1, 0⟩),
       (Dir.west, VecQ.dot (unitize s v) ⟨-1, 0, 0⟩)]
      (Dir.north, VecQ.dot (unitize s v) ⟨0, 1, 0⟩)
  rcases hmem with h | h
  · exact Or.inl (by rw [hres, h])
  · have h3 := by simpa using h
    rcases h3 with h | h | h
    · exact Or.inr (Or.inl (by rw [hres, h]))
    · exact Or.inr (Or.inr (Or.inl (by rw [hres, h])))
    · exact Or.inr (Or.inr (Or.inr (by rw [hres, h])))

/-- The edge loop preserves the bookkeeping invariants: every recorded edge
direction has its rule bit set, the rules list keeps its length 8, and the
rule-vector invariant holds (the edge loop only sets cardinal bits). -/
theorem edgeStage_invariant :
    ∀ (s : ℚ → ℚ) (v : List (Nat × VecQ)) (es : List (Nat × Nat))
      (rules : List Bool) (ed : List ((Nat × Nat) × Dir))
      (out : List Bool × List ((Nat × Nat) × Dir)),
      edgeStage s v es rules ed = Except.ok out →
      (∀ pr ∈ ed, rules.getD pr.2.val false = true) →
      rules.length = 8 →
      diagOk rules →
      (∀ pr ∈ out.2, out.1.getD pr.2.val false = true) ∧ out.1.length = 8 ∧ diagOk out.1 := by
  intro s v es
  induction es with
  | nil =>
    intro rules ed out h pre hlen hdiag
    simp only [edgeStage] at h
    obtain rfl := Except.ok.inj h
    exact ⟨pre, hlen, hdiag⟩
  | cons e rest ih =>
    intro rules ed out h pre hlen hdiag
    simp only [edgeStage] at h
    cases hl1 : List.lookup e.1 v with
    | none => rw [hl1] at h; simp at h
    | some p0 =>
      rw [hl1] at h
      cases hl2 : List.lookup e.2 v with
      | none => rw [hl2] at h; simp at h
      | some p1 =>
        rw [hl2] at h
        have hlt : (closestDirection s (VecQ.sub p1 p0)).2.val < rules.length := by
          have h8 : (closestDirection s (VecQ.sub p1 p0)).2.val < 8 := by
            rcases closestDirection_always_cardinal s (VecQ.sub p1 p0)
                with hc | hc | hc | hc <;> rw [hc] <;> decide
          omega
        refine ih (rules.set (closestDirection s (VecQ.sub p1 p0)).2.val true)
          (((e.1, e.2), (closestDirection s (VecQ.sub p1 p0)).2)
            :: ((e.2, e.1), (closestDirection s (VecQ.sub p1 p0)).2) :: ed) out h ?_ ?_ ?_
        · intro pr hpr
          rcases List.mem_cons.mp hpr with rfl | hpr2
          · exact getD_set_self_true rules _ hlt
          · rcases List.mem_cons.mp hpr2 with rfl | hpr3
            · exact getD_set_self_true rules _ hlt
            · exact getD_set_true_mono rules _ _ (pre pr hpr3)
        · simpa using hlen
        · rcases closestDirection_always_cardinal s (VecQ.sub p1 p0)
              with hc | hc | hc | hc <;> rw [hc] <;>
            exact diagOk_set_even rules _ (by decide) hdiag

/-- The face loop preserves the rule-vector invariant: a successful face sets a
diagonal bit only after both of its cardinal components were set by the edge
loop, because the combination dictionary only maps adjacent cardinal pairs. -/
theorem faceStage_invariant :
    ∀ (ed : List ((Nat × Nat) × Dir)) (fs : List (List Nat)) (rules out : List Bool),
      faceStage ed fs rules = Except.ok out →
      (∀ pr ∈ ed, rules.getD pr.2.val false = true) →
      rules.length = 8 →
      diagOk rules →
      diagOk out := by
  intro ed fs
  induction fs with
  | nil =>
    intro rules out h pre hlen hdiag
    simp only [faceStage] at h
    obtain rfl := Except.ok.inj h
    exact hdiag
  | cons face rest ih =>
    intro rules out h pre hlen hdiag
    simp only [faceStage] at h
    cases hp : processFace ed rules face with
    | error err => rw [hp] at h; simp at h
    | ok rules2 =>
      rw [hp] at h
      have hds : ∀ d ∈ faceDirections ed face, rules.getD d.val false = true := by
        intro d hd
        obtain ⟨i, _, hlk⟩ := List.mem_filterMap.mp hd
        obtain ⟨k2, hk2⟩ := lookup_value_mem ed _ d hlk
        exact pre (k2, d) hk2
      simp only [processFace] at hp
      split at hp
      case isTrue hl2 =>
        obtain ⟨d0, d1, hdseq⟩ := List.length_eq_two.mp (by simpa using hl2)
        have hd0 : rules.getD d0.val false = true := hds d0 (by rw [hdseq]; simp)
        have hd1 : rules.getD d1.val false = true := hds d1 (by rw [hdseq]; simp)
        rw [hdseq] at hp
        simp only [List.getD_cons_zero, List.getD_cons_succ] at hp
        cases d0 <;> cases d1 <;> simp only [getDirectionCombination] at hp <;>
          try (exact Except.noConfusion hp)
        all_goals
          obtain rfl := Except.ok.inj hp
        all_goals
          refine ih _ out h
            (fun pr hpr => getD_set_true_mono rules _ _ (pre pr hpr))
            (by simpa using hlen) ?_
        · exact diagOk_set_diag rules 0 hdiag hd0 hd1
        · exact diagOk_set_diag rules 3 hdiag hd1 hd0
        · exact diagOk_set_diag rules 0 hdiag hd1 hd0
        · exact diagOk_set_diag rules 1 hdiag hd0 hd1
        · exact diagOk_set_diag rules 1 hdiag hd1 hd0
        · exact diagOk_set_diag rules 2 hdiag hd0 hd1
        · exact diagOk_set_diag rules 3 hdiag hd0 hd1
        · exact diagOk_set_diag rules 2 hdiag hd1 hd0
      case isFalse hl2 =>
        exact Except.noConfusion hp

/-- Claim C5 (amended): the fix-up never actually forces a diagonal bit to
false — on a vector needing it, the tuple item assignment raises `TypeError`
instead (see the counterexample) — yet the rule vector actually used to build
the mesh does satisfy the invariant, because every vector `_generate_rules`
produces already has each diagonal bit set only when both adjacent cardinal
bits are set, so the fix-up guard never fires on the in-repository call path
and the mesh faces are built from an invariant-satisfying vector. -/
theorem generateRules_diagOk :
    ∀ (s : ℚ → ℚ) (v : List (Nat × VecQ)) (e : List (Nat × Nat))
      (f : List (List Nat)) (r : List Bool),
      generateRules s v e f = Except.ok r → diagOk r := by
  intro s v e f r h
  simp only [generateRules] at h
  cases he : edgeStage s v e (List.replicate 8 false) [] with
  | error err => rw [he] at h; simp at h
  | ok rsed =>
    rw [he] at h
    obtain ⟨hpre, hlen, hdiag⟩ := edgeStage_invariant s v e (List.replicate 8 false) [] rsed he
      (by simp) (by simp) (by unfold diagOk; decide)
    exact faceStage_invariant rsed.2 f rsed.1 r h hpre hlen hdiag

/-- Witness for `generateRules_diagOk` at a junction with a single north beam:
`_generate_rules` returns the vector with only the NORTH bit set, and that
vector satisfies the diagonal invariant. -/
theorem generateRules_diagOk_witness :
    diagOk [true, false, false, false, false, false, false, false] :=
  generateRules_diagOk (fun _ => 1) [(0, ⟨0, 0, 0⟩), (1, ⟨0, 1, 0⟩)] [(0, 1)] []
    [true, false, false, false, false, false, false, false]
    (by
      have h1 : VecQ.sub ⟨0, 1, 0⟩ ⟨0, 0, 0⟩ = (⟨0, 1, 0⟩ : VecQ) := by
        simp [VecQ.sub]
      simp [generateRules, edgeStage, faceStage, List.lookup, h1,
        closestDirection_north, Dir.val, List.replicate])

/-- Claim C10: `closest_direction` first unitizes the caller's vector object in
place (the returned vector state is exactly `unitize s v`, of unit squared
length), computes the dot products against the unitized vector, and returns one
of the four cardinal keys of the default dictionary, never a diagonal, that
maximizes the dot product, equivalently with the unitized or the original
vector.  The hypotheses say that `s` returns the positive square root of the
squared vector length, i.e. that the vector is nonzero. -/
theorem closestDirection_spec :
    ∀ (s : ℚ → ℚ) (v : VecQ),
      s (VecQ.dot v v) * s (VecQ.dot v v) = VecQ.dot v v →
      0 < s (VecQ.dot v v) →
      (closestDirection s v).1 = unitize s v ∧
      VecQ.dot (closestDirection s v).1 (closestDirection s v).1 = 1 ∧
      ((closestDirection s v).2 = Dir.north ∨ (closestDirection s v).2 = Dir.east ∨
        (closestDirection s v).2 = Dir.south ∨ (closestDirection s v).2 = Dir.west) ∧
      (∀ p ∈ cardinalDirections,
        VecQ.dot (unitize s v) p.2
          ≤ VecQ.dot (unitize s v) (dirUnit (closestDirection s v).2)) ∧
      (∀ p ∈ cardinalDirections,
        VecQ.dot v p.2 ≤ VecQ.dot v (dirUnit (closestDirection s v).2)) := by
  intro s v hs hpos
  have hne : s (VecQ.dot v v) ≠ 0 := ne_of_gt hpos
  have h2 : VecQ.dot (unitize s v) (unitize s v) = 1 := by
    simp only [VecQ.dot] at hs hne
    simp only [unitize, VecQ.dot]
    field_simp
    linear_combination (-1 : ℚ) * hs
  have hres : (closestDirection s v).2
      = (pyMaxBySnd (Dir.north, VecQ.dot (unitize s v) ⟨0, 1, 0⟩)
          [(Dir.east, VecQ.dot (unitize s v) ⟨1, 0, 0⟩),
           (Dir.south, VecQ.dot (unitize s v) ⟨0, -1, 0⟩),
           (Dir.west, VecQ.dot (unitize s v) ⟨-1, 0, 0⟩)]).1 := rfl
  set u := unitize s v with hu
  set best := pyMaxBySnd (Dir.north, VecQ.dot u ⟨0, 1, 0⟩)
      [(Dir.east, VecQ.dot u ⟨1, 0, 0⟩), (Dir.south, VecQ.dot u ⟨0, -1, 0⟩),
       (Dir.west, VecQ.dot u ⟨-1, 0, 0⟩)] with hbest
  obtain ⟨hge0, hgeAll⟩ := pyMaxBySnd_ge
      [(Dir.east, VecQ.dot u ⟨1, 0, 0⟩), (Dir.south, VecQ.dot u ⟨0, -1, 0⟩),
       (Dir.west, VecQ.dot u ⟨-1, 0, 0⟩)] (Dir.north, VecQ.dot u ⟨0, 1, 0⟩)
  have hmem := pyMaxBySnd_mem
      [(Dir.east, VecQ.dot u ⟨1, 0, 0⟩), (Dir.south, VecQ.dot u ⟨0, -1, 0⟩),
       (Dir.west, VecQ.dot u ⟨-1, 0, 0⟩)] (Dir.north, VecQ.dot u ⟨0, 1, 0⟩)
  rw [← hbest] at hge0 hgeAll hmem
  have hmem4 : best = (Dir.north, VecQ.dot u ⟨0, 1, 0⟩)
      ∨ best = (Dir.east, VecQ.dot u ⟨1, 0, 0⟩)
      ∨ best = (Dir.south, VecQ.dot u ⟨0, -1, 0⟩)
      ∨ best = (Dir.west, VecQ.dot u ⟨-1, 0, 0⟩) := by
    rcases hmem with h | h
    · exact Or.inl h
    · exact Or.inr (by simpa using h)
  have hkey : ∀ p ∈ cardinalDirections, VecQ.dot u p.2 ≤ best.2 := by
    intro p hp
    fin_cases hp
    · exact hge0
    · exact hgeAll (Dir.east, VecQ.dot u ⟨1, 0, 0⟩) (by simp)
    · exact hgeAll (Dir.south, VecQ.dot u ⟨0, -1, 0⟩) (by simp)
    · exact hgeAll (Dir.west, VecQ.dot u ⟨-1, 0, 0⟩) (by simp)
  have hdirval : VecQ.dot u (dirUnit best.1) = best.2
      ∧ (best.1 = Dir.north ∨ best.1 = Dir.east ∨ best.1 = Dir.south ∨ best.1 = Dir.west) := by
    rcases hmem4 with h | h | h | h <;> rw [h] <;> exact ⟨rfl, by simp⟩
  have h4 : ∀ p ∈ cardinalDirections,
      VecQ.dot u p.2 ≤ VecQ.dot u (dirUnit (closestDirection s v).2) := by
    intro p hp
    rw [hres, hdirval.1]
    exact hkey p hp
  have hscale : ∀ w, VecQ.dot v w = s (VecQ.dot v v) * VecQ.dot u w := by
    intro w
    rw [hu]
    simp only [unitize, VecQ.dot]
    simp only [VecQ.dot] at hne
    field_simp
    try ring
  refine ⟨rfl, h2, ?_, h4, ?_⟩
  · rw [hres]
    exact hdirval.2
  · intro p hp
    rw [hscale p.2, hscale (dirUnit (closestDirection s v).2)]
    exact mul_le_mul_of_nonneg_left (h4 p hp) (le_of_lt hpos)

/-- Witness for `closestDirection_spec` at the north unit vector with the exact
square root `s = 1`. -/
theorem closestDirection_spec_witness :
    (closestDirection (fun _ => (1 : ℚ)) ⟨0, 1, 0⟩).1
        = unitize (fun _ => (1 : ℚ)) ⟨0, 1, 0⟩ ∧
    VecQ.dot (closestDirection (fun _ => (1 : ℚ)) ⟨0, 1, 0⟩).1
        (closestDirection (fun _ => (1 : ℚ)) ⟨0, 1, 0⟩).1 = 1 :=
  ⟨(closestDirection_spec (fun _ => 1) ⟨0, 1, 0⟩
      (by simp [VecQ.dot]) (by simp [VecQ.dot])).1,
   (closestDirection_spec (fun _ => 1) ⟨0, 1, 0⟩
      (by simp [VecQ.dot]) (by simp [VecQ.dot])).2.1⟩

set_option maxRecDepth 8000 in
set_option maxHeartbeats 1600000 in
/-- Sixteen-vector slices of the exhaustive closure check used by the claim
that every one of the 256 rule vectors, after the fix-up, yields a closed
mesh with Euler characteristic 2 under the intended mutable-rules semantics. -/
theorem closureOk_chunk0 :
    [0, 1, 2, 3, 4, 5, 6, 7, 8, 9, 10, 11, 12, 13, 14, 15].all (fun n => closureOk (ruleVecOf n)) = true := by
  rfl

set_option maxRecDepth 8000 in
set_option maxHeartbeats 1600000 in
/-- Closure check for rule vectors 16 to 31. -/
theorem closureOk_chunk1 :
    [16, 17, 18, 19, 20, 21, 22, 23, 24, 25, 26, 27, 28, 29, 30, 31].all (fun n => closureOk (ruleVecOf n)) = true := by
  rfl

set_option maxRecDepth 8000 in
set_option maxHeartbeats 1600000 in
/-- Closure check for rule vectors 32 to 47. -/
theorem closureOk_chunk2 :
    [32, 33, 34, 35, 36, 37, 38, 39, 40, 41, 42, 43, 44, 45, 46, 47].all (fun n => closureOk (ruleVecOf n)) = true := by
  rfl

set_option maxRecDepth 8000 in
set_option maxHeartbeats 1600000 in
/-- Closure check for rule vectors 48 to 63. -/
theorem closureOk_chunk3 :
    [48, 49, 50, 51, 52, 53, 54, 55, 56, 57, 58, 59, 60, 61, 62, 63].all (fun n => closureOk (ruleVecOf n)) = true := by
  rfl

set_option maxRecDepth 8000 in
set_option maxHeartbeats 1600000 in
/-- Closure check for rule vectors 64 to 79. -/
theorem closureOk_chunk4 :
    [64, 65, 66, 67, 68, 69, 70, 71, 72, 73, 74, 75, 76, 77, 78, 79].all (fun n => closureOk (ruleVecOf n)) = true := by
  rfl

set_option maxRecDepth 8000 in
set_option maxHeartbeats 1600000 in
/-- Closure check for rule vectors 80 to 95. -/
theorem closureOk_chunk5 :
    [80, 81, 82, 83, 84, 85, 86, 87, 88, 89, 90, 91, 92, 93, 94, 95].all (fun n => closureOk (ruleVecOf n)) = true := by
  rfl

set_option maxRecDepth 8000 in
set_option maxHeartbeats 1600000 in
/-- Closure check for rule vectors 96 to 111. -/
theorem closureOk_chunk6 :
    [96, 97, 98, 99, 100, 101, 102, 103, 104, 105, 106, 107, 108, 109, 110, 111].all (fun n => closureOk (ruleVecOf n)) = true := by
  rfl

set_option maxRecDepth 8000 in
set_option maxHeartbeats 1600000 in
/-- Closure check for rule vectors 112 to 127. -/
theorem closureOk_chunk7 :
    [112, 113, 114, 115, 116, 117, 118, 119, 120, 121, 122, 123, 124, 125, 126, 127].all (fun n => closureOk (ruleVecOf n)) = true := by
  rfl

set_option maxRecDepth 8000 in
set_option maxHeartbeats 1600000 in
/-- Closure check for rule vectors 128 to 143. -/
theorem closureOk_chunk8 :
    [128, 129, 130, 131, 132, 133, 134, 135, 136, 137, 138, 139, 140, 141, 142, 143].all (fun n => closureOk (ruleVecOf n)) = true := by
  rfl

set_option maxRecDepth 8000 in
set_option maxHeartbeats 1600000 in
/-- Closure check for rule vectors 144 to 159. -/
theorem closureOk_chunk9 :
    [144, 145, 146, 147, 148, 149, 150, 151, 152, 153, 154, 155, 156, 157, 158, 159].all (fun n => closureOk (ruleVecOf n)) = true := by
  rfl

set_option maxRecDepth 8000 in
set_option maxHeartbeats 1600000 in
/-- Closure check for rule vectors 160 to 175. -/
theorem closureOk_chunk10 :
    [160, 161, 162, 163, 164, 165, 166, 167, 168, 169, 170, 171, 172, 173, 174, 175].all (fun n => closureOk (ruleVecOf n)) = true := by
  rfl

set_option maxRecDepth 8000 in
set_option maxHeartbeats 1600000 in
/-- Closure check for rule vectors 176 to 191. -/
theorem closureOk_chunk11 :
    [176, 177, 178, 179, 180, 181, 182, 183, 184, 185, 186, 187, 188, 189, 190, 191].all (fun n => closureOk (ruleVecOf n)) = true := by
  rfl

set_option maxRecDepth 8000 in
set_option maxHeartbeats 1600000 in
/-- Closure check for rule vectors 192 to 207. -/
theorem closureOk_chunk12 :
    [192, 193, 194, 195, 196, 197, 198, 199, 200, 201, 202, 203, 204, 205, 206, 207].all (fun n => closureOk (ruleVecOf n)) = true := by
  rfl

set_option maxRecDepth 8000 in
set_option maxHeartbeats 1600000 in
/-- Closure check for rule vectors 208 to 223. -/
theorem closureOk_chunk13 :
    [208, 209, 210, 211, 212, 213, 214, 215, 216, 217, 218, 219, 220, 221, 222, 223].all (fun n => closureOk (ruleVecOf n)) = true := by
  rfl

set_option maxRecDepth 8000 in
set_option maxHeartbeats 1600000 in
/-- Closure check for rule vectors 224 to 239. -/
theorem closureOk_chunk14 :
    [224, 225, 226, 227, 228, 229, 230, 231, 232, 233, 234, 235, 236, 237, 238, 239].all (fun n => closureOk (ruleVecOf n)) = true := by
  rfl

set_option maxRecDepth 8000 in
set_option maxHeartbeats 1600000 in
/-- Closure check for rule vectors 240 to 255. -/
theorem closureOk_chunk15 :
    [240, 241, 242, 243, 244, 245, 246, 247, 248, 249, 250, 251, 252, 253, 254, 255].all (fun n => closureOk (ruleVecOf n)) = true := by
  rfl

set_option maxRecDepth 2000 in
/-- The spec-intended property behind claim C2: for every one of the 256
possible rule vectors, the faces generated after the diagonal fix-up form a
closed 2-manifold (every edge borders exactly two faces) with
`V - E + F = 2`.  This holds for the fix-up and face synthesis exactly as
coded, once the rules object is a mutable sequence. -/
theorem closureOk_all_rule_vectors :
    (List.range 256).all (fun n => closureOk (ruleVecOf n)) = true := by
  have h : List.range 256
      = [0, 1, 2, 3, 4, 5, 6, 7, 8, 9, 10, 11, 12, 13, 14, 15] ++
      [16, 17, 18, 19, 20, 21, 22, 23, 24, 25, 26, 27, 28, 29, 30, 31] ++
      [32, 33, 34, 35, 36, 37, 38, 39, 40, 41, 42, 43, 44, 45, 46, 47] ++
      [48, 49, 50, 51, 52, 53, 54, 55, 56, 57, 58, 59, 60, 61, 62, 63] ++
      [64, 65, 66, 67, 68, 69, 70, 71, 72, 73, 74, 75, 76, 77, 78, 79] ++
      [80, 81, 82, 83, 84, 85, 86, 87, 88, 89, 90, 91, 92, 93, 94, 95] ++
      [96, 97, 98, 99, 100, 101, 102, 103, 104, 105, 106, 107, 108, 109, 110, 111] ++
      [112, 113, 114, 115, 116, 117, 118, 119, 120, 121, 122, 123, 124, 125, 126, 127] ++
      [128, 129, 130, 131, 132, 133, 134, 135, 136, 137, 138, 139, 140, 141, 142, 143] ++
      [144, 145, 146, 147, 148, 149, 150, 151, 152, 153, 154, 155, 156, 157, 158, 159] ++
      [160, 161, 162, 163, 164, 165, 166, 167, 168, 169, 170, 171, 172, 173, 174, 175] ++
      [176, 177, 178, 179, 180, 181, 182, 183, 184, 185, 186, 187, 188, 189, 190, 191] ++
      [192, 193, 194, 195, 196, 197, 198, 199, 200, 201, 202, 203, 204, 205, 206, 207] ++
      [208, 209, 210, 211, 212, 213, 214, 215, 216, 217, 218, 219, 220, 221, 222, 223] ++
      [224, 225, 226, 227, 228, 229, 230, 231, 232, 233, 234, 235, 236, 237, 238, 239] ++
      [240, 241, 242, 243, 244, 245, 246, 247, 248, 249, 250, 251, 252, 253, 254, 255] := by
    rfl
  rw [h]
  simp only [List.all_append, Bool.and_eq_true]
  exact ⟨⟨⟨⟨⟨⟨⟨⟨⟨⟨⟨⟨⟨⟨⟨closureOk_chunk0, closureOk_chunk1⟩, closureOk_chunk2⟩, closureOk_chunk3⟩, closureOk_chunk4⟩, closureOk_chunk5⟩, closureOk_chunk6⟩, closureOk_chunk7⟩, closureOk_chunk8⟩, closureOk_chunk9⟩, closureOk_chunk10⟩, closureOk_chunk11⟩, closureOk_chunk12⟩, closureOk_chunk13⟩, closureOk_chunk14⟩, closureOk_chunk15⟩

end CompasGrid
